import Mathlib

/-!
Golden-file comparison: package `golden`, file `golden/golden.go`.

A shallow embedding of the golden-file helpers: `Path`, `update`, `compare`,
`String`, `Bytes`, `Assert` and `AssertBytes`.

Modelling conventions.

* A Go `string` and a Go `[]byte` are both finite byte sequences; both are
  `ByteSeq` here, so the conversions `[]byte(s)` and `string(b)` are the identity.
* The filesystem is explicit state of an arbitrary type `σ`, threaded through
  every function that calls `ioutil.ReadFile` or `ioutil.WriteFile`. The two
  calls are fields of the environment `Env`, and nothing is assumed about
  them: a read after a write need not return the bytes written (`/dev/null`,
  a write-only file, an alias). A theorem that needs the file to read back as
  written says so in a hypothesis.
* The process-wide flag `*flagUpdate` and the other library functions the
  package calls (`filepath.IsAbs`, `filepath.Join`,
  `difflib.GetUnifiedDiffString`) are fields of `Env` too; every theorem holds
  for every environment.
* The optional `Helper()` call on the testing handle only marks a stack frame
  and is not part of the modelled state.
-/

namespace Golden

/-! ## Bytes and strings -/

/-- One byte. -/
abbrev Byte := Fin 256

/-- A Go byte slice, and equally a Go string. -/
abbrev ByteSeq := List Byte

/-- The byte sequence of an ASCII string literal. -/
def ascii (s : String) : ByteSeq := s.toList.map (fun c => Fin.ofNat c.toNat)

/-- Carriage return. -/
def CR : Byte := 13

/-- Line feed. -/
def LF : Byte := 10

/-- The call `bytes.Replace(s, []byte("\r\n"), []byte("\n"), -1)`, which is also
`strings.Replace(s, "\r\n", "\n", -1)`: one pass from the left, every
non-overlapping occurrence of CR LF replaced by LF. -/
def replaceCRLF : ByteSeq → ByteSeq
  | [] => []
  | [a] => [a]
  | a :: b :: rest =>
    if a = CR ∧ b = LF then LF :: replaceCRLF rest else a :: replaceCRLF (b :: rest)

/-- Whether the sequence has a CR immediately followed by an LF. -/
def containsCRLF : ByteSeq → Bool
  | [] => false
  | [_] => false
  | a :: b :: rest => (a == CR && b == LF) || containsCRLF (b :: rest)

/-- Whether the sequence has two CRs immediately followed by an LF. -/
def containsCRCRLF : ByteSeq → Bool
  | [] => false
  | [_] => false
  | [_, _] => false
  | a :: b :: c :: rest => (a == CR && b == CR && c == LF) || containsCRCRLF (b :: c :: rest)

/-- The rendering of a byte slice by the verb `%v` of package fmt: the decimal
values separated by one space, in square brackets. -/
def fmtV (b : ByteSeq) : ByteSeq :=
  ascii "[" ++ ((b.map (fun (x : Byte) => ascii (toString x.val))).intersperse (ascii " ")).flatten
    ++ ascii "]"

/-! ## Errors and results -/

/-- A non-nil Go `error` value. -/
structure GoError where
  msg : String
deriving DecidableEq

/-- Modelled from the spec: the type `cmp.Result` of package `assert/cmp` is not
among the source files. The spec describes a comparison result as a tagged
outcome, Success, Failure(message) or Error(cause). -/
inductive Result where
  | success
  | failure (message : ByteSeq)
  | error (cause : GoError)
deriving DecidableEq

/-- Modelled from the spec: `cmp.ResultSuccess`. -/
def ResultSuccess : Result := Result.success

/-- Modelled from the spec: `cmp.ResultFailure(message)`. -/
def ResultFailure (message : ByteSeq) : Result := Result.failure message

/-- Modelled from the spec: `cmp.ResultFromError(err)` for a non-nil `err`, the
Error variant of the comparison result carrying the cause. -/
def ResultFromError (err : GoError) : Result := Result.error err

/-! ## The diff collaborator -/

/-- The struct `difflib.UnifiedDiff`, with the fields the package sets. -/
structure UnifiedDiff where
  A : List ByteSeq
  B : List ByteSeq
  FromFile : ByteSeq
  ToFile : ByteSeq
  Context : Nat

/-- The pieces `strings.SplitAfter(s, "\n")` cuts `s` into, the current piece
being accumulated in reverse in `cur`. -/
def splitAfterLF (cur : ByteSeq) : ByteSeq → List ByteSeq
  | [] => [cur.reverse]
  | b :: rest =>
    if b = LF then (b :: cur).reverse :: splitAfterLF [] rest
    else splitAfterLF (b :: cur) rest

/-- Append a line feed to the last piece. -/
def appendLFToLast : List ByteSeq → List ByteSeq
  | [] => []
  | [l] => [l ++ [LF]]
  | l :: ls => l :: appendLFToLast ls

/-- The function `difflib.SplitLines`: split after every line feed, then append
a line feed to the last piece. -/
def SplitLines (s : ByteSeq) : List ByteSeq := appendLFToLast (splitAfterLF [] s)

/-- What the package takes from its surroundings: the flag `*flagUpdate`, the
path functions of `path/filepath`, `difflib.GetUnifiedDiffString`, and the two
filesystem calls over filesystem states of type `σ`. `readFile s path` is the
outcome of `ioutil.ReadFile(path)` in state `s`; `writeFile s path data` is the
error returned by `ioutil.WriteFile(path, data, 0644)` in state `s` (`none` for
nil) and the state afterwards. -/
structure Env (σ : Type) where
  flagUpdate : Bool
  isAbs : ByteSeq → Bool
  join : ByteSeq → ByteSeq → ByteSeq
  getUnifiedDiffString : UnifiedDiff → Except GoError ByteSeq
  readFile : σ → ByteSeq → Except GoError ByteSeq
  writeFile : σ → ByteSeq → ByteSeq → Option GoError × σ

/-! ## The package -/

/-- The function `Path`. -/
def Path {σ : Type} (env : Env σ) (filename : ByteSeq) : ByteSeq :=
  if env.isAbs filename then filename
  else env.join (ascii "testdata") filename

/-- The function `update`: the error returned (`none` for nil) and the
filesystem state afterwards. -/
def update {σ : Type} (env : Env σ) (filename actual : ByteSeq) (clean : Bool) (s : σ) :
    Option GoError × σ :=
  if env.flagUpdate then
    let actual := if clean then replaceCRLF actual else actual
    env.writeFile s (Path env filename) actual
  else
    (none, s)

/-- The function `compare`: the pair it returns (`none` for a nil result, `[]`
for a nil slice) and the filesystem state afterwards. -/
def compare {σ : Type} (env : Env σ) (actual filename : ByteSeq) (clean : Bool) (s : σ) :
    (Option Result × ByteSeq) × σ :=
  match update env filename actual clean s with
  | (some err, s1) => ((some (ResultFromError err), []), s1)
  | (none, s1) =>
    match env.readFile s1 (Path env filename) with
    | Except.error err => ((some (ResultFromError err), []), s1)
    | Except.ok expected =>
      if expected = actual then ((some ResultSuccess, []), s1)
      else ((none, expected), s1)

/-- The comparison `Bytes(actual, filename)`, run in a filesystem state. -/
def Bytes {σ : Type} (env : Env σ) (actual filename : ByteSeq) (s : σ) : Result × σ :=
  match compare env actual filename false s with
  | ((some result, _), s1) => (result, s1)
  | ((none, expected), s1) =>
    (ResultFailure (fmtV actual ++ ascii " (actual) != " ++ fmtV expected ++ ascii " (expected)"),
      s1)

/-- The comparison `String(actual, filename)`, run in a filesystem state. -/
def String {σ : Type} (env : Env σ) (actual filename : ByteSeq) (s : σ) : Result × σ :=
  match compare env actual filename true s with
  | ((some result, _), s1) => (result, s1)
  | ((none, expected), s1) =>
    match env.getUnifiedDiffString
        (UnifiedDiff.mk (SplitLines expected) (SplitLines actual)
          (ascii "expected") (ascii "actual") 3) with
    | Except.error err => (ResultFromError err, s1)
    | Except.ok diff => (ResultFailure (ascii "\n" ++ diff), s1)

/-- One failure reported to the testing handle. -/
structure Report where
  result : Result
  msgAndArgs : List ByteSeq

/-- The testing handle `t`: the failures reported to it so far. -/
structure TestingT where
  reports : List Report

/-- Modelled from the spec: the function `assert.Check` of package `assert` is
not among the source files. The spec gives `Check(comparisonResult,
...diagnostics) -> bool`, report failure but continue: Failure and Error both
become a reported test failure and the return value false, Success yields true
with no report. -/
def Check {σ : Type} (t : TestingT) (comparison : σ → Result × σ) (msgAndArgs : List ByteSeq)
    (s : σ) : Bool × TestingT × σ :=
  match comparison s with
  | (Result.success, s1) => (true, t, s1)
  | (result, s1) => (false, TestingT.mk (t.reports ++ [Report.mk result msgAndArgs]), s1)

/-- The function `Assert`. -/
def Assert {σ : Type} (env : Env σ) (t : TestingT) (actual filename : ByteSeq)
    (msgAndArgs : List ByteSeq) (s : σ) : Bool × TestingT × σ :=
  let actual := replaceCRLF actual
  Check t (String env actual filename) msgAndArgs s

/-- The function `AssertBytes`. -/
def AssertBytes {σ : Type} (env : Env σ) (t : TestingT) (actual filename : ByteSeq)
    (msgAndArgs : List ByteSeq) (s : σ) : Bool × TestingT × σ :=
  Check t (Bytes env actual filename) msgAndArgs s

/-- The environment with the update flag set to `b` and everything else as it
was. -/
def Env.withUpdate {σ : Type} (env : Env σ) (b : Bool) : Env σ :=
  Env.mk b env.isAbs env.join env.getUnifiedDiffString env.readFile env.writeFile

/-- The environment with the two filesystem calls replaced and everything else
as it was. -/
def Env.withFS {σ : Type} (env : Env σ) (readFile : σ → ByteSeq → Except GoError ByteSeq)
    (writeFile : σ → ByteSeq → ByteSeq → Option GoError × σ) : Env σ :=
  Env.mk env.flagUpdate env.isAbs env.join env.getUnifiedDiffString readFile writeFile

/-! ## A concrete environment: Unix -/

/-- The path separator. -/
def slash : Byte := 47

/-- The elements between the slashes of a path, the current element being
accumulated in reverse in `cur`. -/
def splitSlash (cur : ByteSeq) : ByteSeq → List ByteSeq
  | [] => [cur.reverse]
  | b :: rest =>
    if b = slash then cur.reverse :: splitSlash [] rest
    else splitSlash (b :: cur) rest

/-- The element loop of `filepath.Clean`: `out` holds the elements kept so far,
last first. Empty and `.` elements are dropped; `..` removes the last kept
element when there is one that is not itself `..`, is dropped at the root, and
is kept otherwise. -/
def cleanElems (rooted : Bool) : List ByteSeq → List ByteSeq → List ByteSeq
  | out, [] => out.reverse
  | out, c :: cs =>
    if c = [] ∨ c = ascii "." then cleanElems rooted out cs
    else if c = ascii ".." then
      match out with
      | [] => if rooted then cleanElems rooted [] cs else cleanElems rooted [c] cs
      | top :: below =>
        if top = ascii ".." then cleanElems rooted (c :: out) cs
        else cleanElems rooted below cs
    else cleanElems rooted (c :: out) cs

/-- The function `filepath.Clean` on Unix. -/
def Clean (path : ByteSeq) : ByteSeq :=
  match path with
  | [] => ascii "."
  | first :: _ =>
    let rooted := decide (first = slash)
    let body := ((cleanElems rooted [] (splitSlash [] path)).intersperse [slash]).flatten
    let res := if rooted then slash :: body else body
    if res = [] then ascii "." else res

/-- The function `filepath.IsAbs` on Unix: the path starts with a slash. -/
def unixIsAbs : ByteSeq → Bool
  | [] => false
  | first :: _ => first == slash

/-- The function `filepath.Join` on Unix, for two elements: empty elements are
ignored and the rest, joined by slashes, is cleaned. -/
def unixJoin (a b : ByteSeq) : ByteSeq :=
  if a ≠ [] then Clean (a ++ slash :: b)
  else if b ≠ [] then Clean b
  else []

/-- A stand-in for `difflib.GetUnifiedDiffString` in concrete instances: the two
file labels, then every line of `A` marked removed and every line of `B` marked
added. It never fails. No theorem depends on it. -/
def listingDiff (d : UnifiedDiff) : Except GoError ByteSeq :=
  Except.ok (ascii "--- " ++ d.FromFile ++ ascii "\n+++ " ++ d.ToFile ++ ascii "\n"
    ++ (d.A.map (fun l => ascii "-" ++ l)).flatten ++ (d.B.map (fun l => ascii "+" ++ l)).flatten)

/-- A concrete filesystem state: the regular files that exist, each path with
its content. -/
abbrev Files := List (ByteSeq × ByteSeq)

/-- The path of the null device. -/
def devNull : ByteSeq := ascii "/dev/null"

/-- Reading in the concrete filesystem: the null device reads as empty, a
regular file reads as its content, any other path does not exist. -/
def unixReadFile (files : Files) (path : ByteSeq) : Except GoError ByteSeq :=
  if path = devNull then Except.ok []
  else
    match files.lookup path with
    | some data => Except.ok data
    | none => Except.error (GoError.mk "no such file or directory")

/-- Writing in the concrete filesystem: every write succeeds; the null device
discards the data, any other path becomes a regular file holding the data. -/
def unixWriteFile (files : Files) (path data : ByteSeq) : Option GoError × Files :=
  if path = devNull then (none, files)
  else (none, (path, data) :: files.filter (fun entry => entry.1 ≠ path))

/-- The Unix environment with the given setting of the update flag. -/
def unixEnv (flagUpdate : Bool) : Env Files :=
  Env.mk flagUpdate unixIsAbs unixJoin listingDiff unixReadFile unixWriteFile

/-! ## Helper lemmas -/

theorem replaceCRLF_length_le (a : ByteSeq) : (replaceCRLF a).length ≤ a.length := by
  induction a using replaceCRLF.induct with
  | case1 => simp [replaceCRLF]
  | case2 a => simp [replaceCRLF]
  | case3 a b rest h ih => simp only [replaceCRLF, h, and_self, if_true, List.length_cons]; omega
  | case4 a b rest h ih => simp only [replaceCRLF, h, if_false, List.length_cons] at ih ⊢; omega

theorem replaceCRLF_of_not_contains (a : ByteSeq) (h : containsCRLF a = false) :
    replaceCRLF a = a := by
  induction a using replaceCRLF.induct with
  | case1 => rfl
  | case2 a => rfl
  | case3 a b rest hab ih =>
    simp [containsCRLF, hab.1, hab.2] at h
  | case4 a b rest hab ih =>
    have hc : containsCRLF (b :: rest) = false := by
      simp only [containsCRLF, Bool.or_eq_false_iff] at h
      exact h.2
    simp only [replaceCRLF, hab, if_false, ih hc]

theorem replaceCRLF_ne_of_contains (a : ByteSeq) (h : containsCRLF a = true) :
    replaceCRLF a ≠ a := by
  have hlt : (replaceCRLF a).length < a.length := by
    induction a using replaceCRLF.induct with
    | case1 => simp [containsCRLF] at h
    | case2 a => simp [containsCRLF] at h
    | case3 a b rest hab ih =>
      have := replaceCRLF_length_le rest
      simp only [replaceCRLF, hab, and_self, if_true, List.length_cons]
      omega
    | case4 a b rest hab ih =>
      have hc : containsCRLF (b :: rest) = true := by
        simp only [containsCRLF, Bool.or_eq_true, Bool.and_eq_true, beq_iff_eq] at h
        rcases h with h | h
        · exact absurd h hab
        · exact h
      have := ih hc
      simp only [replaceCRLF, hab, if_false, List.length_cons] at this ⊢
      omega
  intro heq
  rw [heq] at hlt
  exact lt_irrefl _ hlt


theorem containsCRLF_cons (a : Byte) (l : ByteSeq) :
    containsCRLF (a :: l) = ((a == CR && l.head? == some LF) || containsCRLF l) := by
  cases l with
  | nil => simp [containsCRLF]
  | cons b rest => simp [containsCRLF]

theorem containsCRCRLF_cons (a : Byte) (l : ByteSeq) :
    containsCRCRLF (a :: l) =
      ((a == CR && l.head? == some CR && l.tail.head? == some LF) || containsCRCRLF l) := by
  cases l with
  | nil => simp [containsCRCRLF]
  | cons b rest =>
    cases rest with
    | nil => simp [containsCRCRLF]
    | cons c rest2 => simp [containsCRCRLF]

theorem LF_beq_CR : (LF == CR) = false := by decide

theorem replaceCRLF_head (b : Byte) (rest : ByteSeq) :
    ((replaceCRLF (b :: rest)).head? == some LF) =
      ((b == LF) || (b == CR && rest.head? == some LF)) := by
  cases rest with
  | nil => simp [replaceCRLF]
  | cons c rest2 =>
    by_cases h : b = CR ∧ c = LF
    · simp [replaceCRLF, h.1, h.2]
    · simp only [replaceCRLF, h, if_false, List.head?_cons]
      by_cases hb : b = LF
      · simp [hb]
      · by_cases hc : b = CR
        · have : c ≠ LF := fun hc2 => h ⟨hc, hc2⟩
          simp [hb, hc, this]
        · simp [hb, hc]

theorem containsCRLF_replaceCRLF (a : ByteSeq) :
    containsCRLF (replaceCRLF a) = containsCRCRLF a := by
  induction a using replaceCRLF.induct with
  | case1 => rfl
  | case2 a => rfl
  | case3 a b rest hab ih =>
    obtain ⟨ha, hb⟩ := hab
    subst ha hb
    have h1 := containsCRLF_cons LF (replaceCRLF rest)
    have h2 := containsCRCRLF_cons CR (LF :: rest)
    have h3 := containsCRCRLF_cons LF rest
    simp only [replaceCRLF, and_self, if_true]
    rw [h1, h2, h3, ih]
    simp [LF_beq_CR]
  | case4 a b rest hab ih =>
    have h1 := containsCRLF_cons a (replaceCRLF (b :: rest))
    have h2 := containsCRCRLF_cons a (b :: rest)
    simp only [replaceCRLF, hab, if_false]
    rw [h1, h2, ih, replaceCRLF_head]
    by_cases ha : a = CR
    · have hb : (b == LF) = false := beq_eq_false_iff_ne.mpr (fun hb => hab ⟨ha, hb⟩)
      simp [ha, hb]
    · have ha2 : (a == CR) = false := beq_eq_false_iff_ne.mpr ha
      simp [ha2]
theorem update_flag_off {σ : Type} (env : Env σ) (filename actual : ByteSeq) (clean : Bool)
    (s : σ) (hoff : env.flagUpdate = false) : update env filename actual clean s = (none, s) := by
  simp [update, hoff]

theorem update_flag_on {σ : Type} (env : Env σ) (filename actual : ByteSeq) (clean : Bool)
    (s : σ) (hon : env.flagUpdate = true) :
    update env filename actual clean s =
      env.writeFile s (Path env filename) (if clean then replaceCRLF actual else actual) := by
  simp [update, hon]

theorem compare_snd {σ : Type} (env : Env σ) (actual filename : ByteSeq) (clean : Bool) (s : σ) :
    (compare env actual filename clean s).2 = (update env filename actual clean s).2 := by
  unfold compare
  rcases update env filename actual clean s with ⟨e, s1⟩
  cases e with
  | some err => rfl
  | none =>
    simp only
    cases env.readFile s1 (Path env filename) with
    | error err => rfl
    | ok expected => by_cases h : expected = actual <;> simp [h]

theorem Bytes_snd {σ : Type} (env : Env σ) (actual filename : ByteSeq) (s : σ) :
    (Bytes env actual filename s).2 = (update env filename actual false s).2 := by
  rw [← compare_snd]
  unfold Bytes
  rcases compare env actual filename false s with ⟨⟨r, expected⟩, s1⟩
  cases r <;> rfl

theorem String_snd {σ : Type} (env : Env σ) (actual filename : ByteSeq) (s : σ) :
    (String env actual filename s).2 = (update env filename actual true s).2 := by
  rw [← compare_snd]
  unfold String
  rcases compare env actual filename true s with ⟨⟨r, expected⟩, s1⟩
  cases r with
  | some result => rfl
  | none =>
    simp only
    cases env.getUnifiedDiffString
      (UnifiedDiff.mk (SplitLines expected) (SplitLines actual)
        (ascii "expected") (ascii "actual") 3) <;> rfl

theorem compare_of_update_ok {σ : Type} (env : Env σ) (actual filename : ByteSeq) (clean : Bool)
    (s : σ) (hu : (update env filename actual clean s).1 = none) :
    compare env actual filename clean s =
      match env.readFile (update env filename actual clean s).2 (Path env filename) with
      | Except.error err =>
        ((some (Result.error err), []), (update env filename actual clean s).2)
      | Except.ok expected =>
        if expected = actual then
          ((some Result.success, []), (update env filename actual clean s).2)
        else ((none, expected), (update env filename actual clean s).2) := by
  unfold compare
  rcases hup : update env filename actual clean s with ⟨e, s1⟩
  rw [hup] at hu
  simp only at hu
  subst hu
  simp only
  cases env.readFile s1 (Path env filename) <;> rfl

theorem Bytes_of_update_ok {σ : Type} (env : Env σ) (actual filename : ByteSeq) (s : σ)
    (hu : (update env filename actual false s).1 = none) :
    Bytes env actual filename s =
      match env.readFile (update env filename actual false s).2 (Path env filename) with
      | Except.error err => (Result.error err, (update env filename actual false s).2)
      | Except.ok expected =>
        if expected = actual then (Result.success, (update env filename actual false s).2)
        else (Result.failure
          (fmtV actual ++ ascii " (actual) != " ++ fmtV expected ++ ascii " (expected)"),
          (update env filename actual false s).2) := by
  simp only [Bytes, compare_of_update_ok env actual filename false s hu]
  cases env.readFile (update env filename actual false s).2 (Path env filename) with
  | error err => rfl
  | ok expected =>
    by_cases h : expected = actual
    · simp [h]
    · simp [h, ResultFailure]

theorem String_of_update_ok {σ : Type} (env : Env σ) (actual filename : ByteSeq) (s : σ)
    (hu : (update env filename actual true s).1 = none) :
    String env actual filename s =
      match env.readFile (update env filename actual true s).2 (Path env filename) with
      | Except.error err => (Result.error err, (update env filename actual true s).2)
      | Except.ok expected =>
        if expected = actual then (Result.success, (update env filename actual true s).2)
        else
          match env.getUnifiedDiffString
              (UnifiedDiff.mk (SplitLines expected) (SplitLines actual)
                (ascii "expected") (ascii "actual") 3) with
          | Except.error err => (Result.error err, (update env filename actual true s).2)
          | Except.ok diff =>
            (Result.failure (ascii "\n" ++ diff), (update env filename actual true s).2) := by
  simp only [String, compare_of_update_ok env actual filename true s hu]
  cases env.readFile (update env filename actual true s).2 (Path env filename) with
  | error err => rfl
  | ok expected =>
    by_cases h : expected = actual
    · simp [h]
    · simp only [h, if_false]
      cases env.getUnifiedDiffString
        (UnifiedDiff.mk (SplitLines expected) (SplitLines actual)
          (ascii "expected") (ascii "actual") 3) <;> rfl

theorem Bytes_flag_off {σ : Type} (env : Env σ) (actual filename : ByteSeq) (s : σ)
    (hoff : env.flagUpdate = false) :
    Bytes env actual filename s =
      match env.readFile s (Path env filename) with
      | Except.error err => (Result.error err, s)
      | Except.ok expected =>
        if expected = actual then (Result.success, s)
        else (Result.failure
          (fmtV actual ++ ascii " (actual) != " ++ fmtV expected ++ ascii " (expected)"), s) := by
  have hu := update_flag_off env filename actual false s hoff
  rw [Bytes_of_update_ok env actual filename s (by rw [hu]), hu]

theorem String_flag_off {σ : Type} (env : Env σ) (actual filename : ByteSeq) (s : σ)
    (hoff : env.flagUpdate = false) :
    String env actual filename s =
      match env.readFile s (Path env filename) with
      | Except.error err => (Result.error err, s)
      | Except.ok expected =>
        if expected = actual then (Result.success, s)
        else
          match env.getUnifiedDiffString
              (UnifiedDiff.mk (SplitLines expected) (SplitLines actual)
                (ascii "expected") (ascii "actual") 3) with
          | Except.error err => (Result.error err, s)
          | Except.ok diff => (Result.failure (ascii "\n" ++ diff), s) := by
  have hu := update_flag_off env filename actual true s hoff
  rw [String_of_update_ok env actual filename s (by rw [hu]), hu]

theorem String_ne_success {σ : Type} (env : Env σ) (actual filename expected : ByteSeq) (s : σ)
    (hu : (update env filename actual true s).1 = none)
    (hr : env.readFile (update env filename actual true s).2 (Path env filename) =
      Except.ok expected)
    (hne : expected ≠ actual) :
    (String env actual filename s).1 ≠ Result.success := by
  rw [String_of_update_ok env actual filename s hu, hr]
  simp only [hne, if_false]
  cases env.getUnifiedDiffString
    (UnifiedDiff.mk (SplitLines expected) (SplitLines actual)
      (ascii "expected") (ascii "actual") 3) <;> simp

theorem String_success {σ : Type} (env : Env σ) (actual filename : ByteSeq) (s : σ)
    (hu : (update env filename actual true s).1 = none)
    (hr : env.readFile (update env filename actual true s).2 (Path env filename) =
      Except.ok actual) :
    (String env actual filename s).1 = Result.success := by
  rw [String_of_update_ok env actual filename s hu, hr]
  simp

theorem Check_state {σ : Type} (t : TestingT) (comparison : σ → Result × σ)
    (msgAndArgs : List ByteSeq) (s : σ) :
    (Check t comparison msgAndArgs s).2.2 = (comparison s).2 := by
  unfold Check
  split <;> simp_all

theorem Check_true_iff {σ : Type} (t : TestingT) (comparison : σ → Result × σ)
    (msgAndArgs : List ByteSeq) (s : σ) :
    (Check t comparison msgAndArgs s).1 = true ↔ (comparison s).1 = Result.success := by
  unfold Check
  split
  · simp_all
  · rename_i r s1 hne heq
    simp only [heq, Bool.false_eq_true, false_iff]
    intro h
    exact hne h

theorem Check_false_reports {σ : Type} (t : TestingT) (comparison : σ → Result × σ)
    (msgAndArgs : List ByteSeq) (s : σ) (h : (comparison s).1 ≠ Result.success) :
    (Check t comparison msgAndArgs s).1 = false
    ∧ (Check t comparison msgAndArgs s).2.1.reports =
        t.reports ++ [Report.mk (comparison s).1 msgAndArgs] := by
  unfold Check
  split
  · rename_i s1 heq
    exact absurd (by rw [heq]) h
  · rename_i r s1 hne heq
    simp [heq]

theorem Check_true_reports {σ : Type} (t : TestingT) (comparison : σ → Result × σ)
    (msgAndArgs : List ByteSeq) (s : σ) (h : (comparison s).1 = Result.success) :
    (Check t comparison msgAndArgs s).1 = true ∧ (Check t comparison msgAndArgs s).2.1 = t := by
  unfold Check
  split
  · simp
  · rename_i r s1 hne heq
    rw [heq] at h
    exact absurd h hne

theorem compare_withFS {σ : Type} (env : Env σ) (actual filename : ByteSeq) (clean : Bool)
    (s : σ) (r : σ → ByteSeq → Except GoError ByteSeq)
    (w : σ → ByteSeq → ByteSeq → Option GoError × σ)
    (hr : ∀ s0, r s0 (Path env filename) = env.readFile s0 (Path env filename))
    (hw : ∀ s0 d, w s0 (Path env filename) d = env.writeFile s0 (Path env filename) d) :
    compare (env.withFS r w) actual filename clean s = compare env actual filename clean s := by
  have hP : Path (env.withFS r w) filename = Path env filename := rfl
  have hu : update (env.withFS r w) filename actual clean s =
      update env filename actual clean s := by
    unfold update
    rw [hP]
    cases hf : env.flagUpdate with
    | false => simp [Env.withFS, hf]
    | true => simp [Env.withFS, hf, hw]
  unfold compare
  rw [hu, hP]
  have hr2 : ∀ s0, (env.withFS r w).readFile s0 (Path env filename) =
      env.readFile s0 (Path env filename) := hr
  simp only [hr2]

theorem Bytes_withFS {σ : Type} (env : Env σ) (actual filename : ByteSeq)
    (s : σ) (r : σ → ByteSeq → Except GoError ByteSeq)
    (w : σ → ByteSeq → ByteSeq → Option GoError × σ)
    (hr : ∀ s0, r s0 (Path env filename) = env.readFile s0 (Path env filename))
    (hw : ∀ s0 d, w s0 (Path env filename) d = env.writeFile s0 (Path env filename) d) :
    Bytes (env.withFS r w) actual filename s = Bytes env actual filename s := by
  unfold Bytes
  rw [compare_withFS env actual filename false s r w hr hw]

theorem String_withFS {σ : Type} (env : Env σ) (actual filename : ByteSeq)
    (s : σ) (r : σ → ByteSeq → Except GoError ByteSeq)
    (w : σ → ByteSeq → ByteSeq → Option GoError × σ)
    (hr : ∀ s0, r s0 (Path env filename) = env.readFile s0 (Path env filename))
    (hw : ∀ s0 d, w s0 (Path env filename) d = env.writeFile s0 (Path env filename) d) :
    String (env.withFS r w) actual filename s = String env actual filename s := by
  unfold String
  rw [compare_withFS env actual filename true s r w hr hw]
  rfl

/-! ## The claims -/

/-- C1. With the update flag off, `Bytes(actual, filename)()` has exactly one of
three outcomes: the Error result carrying the read error exactly when reading
`Path(filename)` fails; Success exactly when the read succeeds with bytes equal
to `actual`; and, when the read succeeds with different bytes `expected`, the
Failure whose message is the `%v` rendering of `actual`, then
` (actual) != `, then the `%v` rendering of `expected`, then ` (expected)`. -/
theorem Bytes_outcome_update_off {σ : Type} (env : Env σ) (s : σ) (actual filename : ByteSeq)
    (hoff : env.flagUpdate = false) :
    (∀ err, (Bytes env actual filename s).1 = Result.error err ↔
        env.readFile s (Path env filename) = Except.error err)
    ∧ ((Bytes env actual filename s).1 = Result.success ↔
        env.readFile s (Path env filename) = Except.ok actual)
    ∧ (∀ expected, env.readFile s (Path env filename) = Except.ok expected → expected ≠ actual →
        (Bytes env actual filename s).1 = Result.failure
          (fmtV actual ++ ascii " (actual) != " ++ fmtV expected ++ ascii " (expected)")) := by
  rw [Bytes_flag_off env actual filename s hoff]
  cases hr : env.readFile s (Path env filename) with
  | error e => simp
  | ok expected =>
    by_cases h : expected = actual
    · simp [h]
    · simp [h]

/-- Witness for C1: fixture `[1 3]`, actual `[1 2]`, update flag off. -/
theorem Bytes_outcome_update_off_witness :
    (Bytes (unixEnv false) [1, 2] (ascii "out.golden")
        [(ascii "testdata/out.golden", [1, 3])]).1 =
      Result.failure (ascii "[1 2] (actual) != [1 3] (expected)") :=
  (Bytes_outcome_update_off (unixEnv false) [(ascii "testdata/out.golden", [1, 3])]
    [1, 2] (ascii "out.golden") rfl).2.2 [1, 3] rfl (by decide)

/-- C2 (the code departs from the claim). With the update flag off, for every
string `A` containing a CRLF sequence and every fixture holding `A` with each
CRLF replaced by LF, `String(A, filename)()` does not return Success: it
compares the fixture with `A` as given, CRLF included. -/
theorem String_crlf_not_success {σ : Type} (env : Env σ) (s : σ) (A filename : ByteSeq)
    (hoff : env.flagUpdate = false) (hA : containsCRLF A = true)
    (hfix : env.readFile s (Path env filename) = Except.ok (replaceCRLF A)) :
    (String env A filename s).1 ≠ Result.success := by
  have hu := update_flag_off env filename A true s hoff
  exact String_ne_success env A filename (replaceCRLF A) s (by rw [hu]) (by rw [hu]; exact hfix)
    (replaceCRLF_ne_of_contains A hA)

/-- The failing input of C2: actual `a CR LF b LF`, fixture `a LF b LF`, update
flag off. -/
theorem String_crlf_not_success_witness :
    (String (unixEnv false) (ascii "a\r\nb\n") (ascii "out.golden")
      [(ascii "testdata/out.golden", ascii "a\nb\n")]).1 ≠ Result.success :=
  String_crlf_not_success (unixEnv false) [(ascii "testdata/out.golden", ascii "a\nb\n")]
    (ascii "a\r\nb\n") (ascii "out.golden") rfl (by decide) rfl

/-- C3, counterexample to the claim as stated. The fixture is the null device:
`String` run with the update flag on writes `a LF` there without error, the
device keeps nothing, and the later run with the flag off reads no bytes and
does not return Success. -/
theorem String_round_trip_counterexample :
    containsCRLF (ascii "a\n") = false
    ∧ (update (unixEnv true) devNull (ascii "a\n") true []).1 = none
    ∧ unixReadFile (String (unixEnv true) (ascii "a\n") devNull []).2 devNull = Except.ok []
    ∧ (String (unixEnv false) (ascii "a\n") devNull
        (String (unixEnv true) (ascii "a\n") devNull []).2).1 ≠ Result.success :=
  ⟨by decide, by decide, rfl, by decide⟩

/-- C3, amended. Round trip of the text pipeline: for a string `A` with no CRLF
sequence, when `String(A, filename)()` runs with the update flag on, the write
of `A` to `Path(filename)` succeeds and the file then reads back as `A`, that
run leaves the filesystem as the write of `A` left it and returns Success, and
running `String(A, filename)()` with the flag off on that filesystem returns
Success. -/
theorem String_round_trip {σ : Type} (env : Env σ) (s : σ) (A filename : ByteSeq)
    (hA : containsCRLF A = false)
    (hw : (env.writeFile s (Path env filename) A).1 = none)
    (hr : env.readFile (env.writeFile s (Path env filename) A).2 (Path env filename) =
      Except.ok A) :
    (String (env.withUpdate true) A filename s).2 = (env.writeFile s (Path env filename) A).2
    ∧ (String (env.withUpdate true) A filename s).1 = Result.success
    ∧ (String (env.withUpdate false) A filename
        (String (env.withUpdate true) A filename s).2).1 = Result.success := by
  have hon : (env.withUpdate true).flagUpdate = true := rfl
  have hoff : (env.withUpdate false).flagUpdate = false := rfl
  have hu : update (env.withUpdate true) filename A true s =
      env.writeFile s (Path env filename) A := by
    rw [update_flag_on (env.withUpdate true) filename A true s hon]
    simp only [if_true, replaceCRLF_of_not_contains A hA]
    rfl
  have hs : (String (env.withUpdate true) A filename s).2 =
      (env.writeFile s (Path env filename) A).2 := by
    rw [String_snd, hu]
  refine ⟨hs, ?_, ?_⟩
  · exact String_success (env.withUpdate true) A filename s (by rw [hu]; exact hw)
      (by rw [hu]; exact hr)
  · rw [hs]
    have hu2 := update_flag_off (env.withUpdate false) filename A true
      (env.writeFile s (Path env filename) A).2 hoff
    exact String_success (env.withUpdate false) A filename _ (by rw [hu2])
      (by rw [hu2]; exact hr)

/-- Witness for the amended C3: the text `line1`, `line2` written to a fresh
regular file and compared again. -/
theorem String_round_trip_witness :
    (String (unixEnv false) (ascii "line1\nline2\n") (ascii "out.golden")
      (String (unixEnv true) (ascii "line1\nline2\n") (ascii "out.golden") []).2).1 =
        Result.success :=
  (String_round_trip (unixEnv false) [] (ascii "line1\nline2\n") (ascii "out.golden")
    (by decide) (by decide) rfl).2.2

/-- C4. With the update flag off, when reading `Path(filename)` fails with an
error, both `String(actual, filename)()` and `Bytes(actual, filename)()` return
the Error result carrying that read error; neither returns Success or a
Failure. -/
theorem read_error_update_off {σ : Type} (env : Env σ) (s : σ) (actual filename : ByteSeq)
    (err : GoError) (hoff : env.flagUpdate = false)
    (hr : env.readFile s (Path env filename) = Except.error err) :
    (String env actual filename s).1 = Result.error err
    ∧ (Bytes env actual filename s).1 = Result.error err
    ∧ (String env actual filename s).1 ≠ Result.success
    ∧ (Bytes env actual filename s).1 ≠ Result.success
    ∧ (∀ message, (String env actual filename s).1 ≠ Result.failure message)
    ∧ (∀ message, (Bytes env actual filename s).1 ≠ Result.failure message) := by
  rw [String_flag_off env actual filename s hoff, Bytes_flag_off env actual filename s hoff, hr]
  simp

/-- Witness for C4: no fixture exists, update flag off. -/
theorem read_error_update_off_witness :
    (String (unixEnv false) (ascii "text\n") (ascii "missing.golden") []).1 =
      Result.error (GoError.mk "no such file or directory") :=
  (read_error_update_off (unixEnv false) [] (ascii "text\n") (ascii "missing.golden")
    (GoError.mk "no such file or directory") rfl rfl).1

/-- C5, counterexample to the claim as stated. The fixture is the null device:
`Bytes` run with the update flag on writes the byte `7` there without error,
the device keeps nothing, the read returns no bytes and the result is the
Failure for the mismatch; the file does not hold the actual bytes. -/
theorem Bytes_update_counterexample :
    (unixEnv true).flagUpdate = true
    ∧ (update (unixEnv true) devNull [7] false []).1 = none
    ∧ unixReadFile (Bytes (unixEnv true) [7] devNull []).2 devNull = Except.ok []
    ∧ (Bytes (unixEnv true) [7] devNull []).1 =
        Result.failure (ascii "[7] (actual) != [] (expected)") :=
  ⟨rfl, by decide, rfl, by decide⟩

/-- C5, amended. With the update flag on, `Bytes(actual, filename)()` leaves the
filesystem as `WriteFile(Path(filename), actual)` leaves it, the bytes written
being `actual` unchanged whether or not it contains CRLF and whatever the file
held before; when that write succeeds and the file then reads back as the
bytes written, the file holds exactly `actual` and the result is Success. -/
theorem Bytes_update_writes_actual {σ : Type} (env : Env σ) (s : σ) (actual filename : ByteSeq)
    (hon : env.flagUpdate = true)
    (hw : (env.writeFile s (Path env filename) actual).1 = none)
    (hr : env.readFile (env.writeFile s (Path env filename) actual).2 (Path env filename) =
      Except.ok actual) :
    (Bytes env actual filename s).2 = (env.writeFile s (Path env filename) actual).2
    ∧ env.readFile (Bytes env actual filename s).2 (Path env filename) = Except.ok actual
    ∧ (Bytes env actual filename s).1 = Result.success := by
  have hu : update env filename actual false s = env.writeFile s (Path env filename) actual := by
    rw [update_flag_on env filename actual false s hon]
    simp
  have hs : (Bytes env actual filename s).2 = (env.writeFile s (Path env filename) actual).2 := by
    rw [Bytes_snd, hu]
  refine ⟨hs, by rw [hs]; exact hr, ?_⟩
  rw [Bytes_of_update_ok env actual filename s (by rw [hu]; exact hw), hu, hr]
  simp

/-- Witness for the amended C5: bytes containing CRLF overwrite an existing
regular file. -/
theorem Bytes_update_writes_actual_witness :
    (Bytes (unixEnv true) (ascii "a\r\nb") (ascii "bin.golden")
        [(ascii "testdata/bin.golden", ascii "old")]).2 =
      [(ascii "testdata/bin.golden", ascii "a\r\nb")]
    ∧ (Bytes (unixEnv true) (ascii "a\r\nb") (ascii "bin.golden")
        [(ascii "testdata/bin.golden", ascii "old")]).1 = Result.success :=
  ⟨(Bytes_update_writes_actual (unixEnv true) [(ascii "testdata/bin.golden", ascii "old")]
      (ascii "a\r\nb") (ascii "bin.golden") rfl (by decide) rfl).1,
    (Bytes_update_writes_actual (unixEnv true) [(ascii "testdata/bin.golden", ascii "old")]
      (ascii "a\r\nb") (ascii "bin.golden") rfl (by decide) rfl).2.2⟩

/-- C6 (the code departs from the claim). With the update flag on, let `String(A,
filename)()` run twice, each write succeeding and the file each time reading
back as the bytes written. After the first run and after the second the
fixture holds `A` with each CRLF replaced by LF; but when `A` contains a CRLF
sequence neither run returns Success, because the fixture is compared with `A`
as given. -/
theorem String_update_twice_crlf {σ : Type} (env : Env σ) (s : σ) (A filename : ByteSeq)
    (hon : env.flagUpdate = true) (hA : containsCRLF A = true)
    (hw1 : (env.writeFile s (Path env filename) (replaceCRLF A)).1 = none)
    (hr1 : env.readFile (env.writeFile s (Path env filename) (replaceCRLF A)).2
      (Path env filename) = Except.ok (replaceCRLF A))
    (hw2 : (env.writeFile (env.writeFile s (Path env filename) (replaceCRLF A)).2
      (Path env filename) (replaceCRLF A)).1 = none)
    (hr2 : env.readFile (env.writeFile (env.writeFile s (Path env filename) (replaceCRLF A)).2
      (Path env filename) (replaceCRLF A)).2 (Path env filename) = Except.ok (replaceCRLF A)) :
    env.readFile (String env A filename s).2 (Path env filename) = Except.ok (replaceCRLF A)
    ∧ env.readFile (String env A filename (String env A filename s).2).2 (Path env filename) =
        Except.ok (replaceCRLF A)
    ∧ (String env A filename s).1 ≠ Result.success
    ∧ (String env A filename (String env A filename s).2).1 ≠ Result.success := by
  have hne : replaceCRLF A ≠ A := replaceCRLF_ne_of_contains A hA
  have hu : ∀ s0 : σ, update env filename A true s0 =
      env.writeFile s0 (Path env filename) (replaceCRLF A) := by
    intro s0
    rw [update_flag_on env filename A true s0 hon]
    simp
  have hs1 : (String env A filename s).2 =
      (env.writeFile s (Path env filename) (replaceCRLF A)).2 := by
    rw [String_snd, hu]
  refine ⟨?_, ?_, ?_, ?_⟩
  · rw [hs1]; exact hr1
  · rw [String_snd, hu, hs1]; exact hr2
  · exact String_ne_success env A filename (replaceCRLF A) s (by rw [hu]; exact hw1)
      (by rw [hu]; exact hr1) hne
  · rw [hs1]
    exact String_ne_success env A filename (replaceCRLF A) _ (by rw [hu]; exact hw2)
      (by rw [hu]; exact hr2) hne

/-- The failing input of C6: actual `a CR LF`, update flag on, no fixture
before the first run, regular files. -/
theorem String_update_twice_crlf_witness :
    (String (unixEnv true) (ascii "a\r\n") (ascii "out.golden")
        (String (unixEnv true) (ascii "a\r\n") (ascii "out.golden") []).2).2 =
      [(ascii "testdata/out.golden", ascii "a\n")]
    ∧ unixReadFile (String (unixEnv true) (ascii "a\r\n") (ascii "out.golden")
        (String (unixEnv true) (ascii "a\r\n") (ascii "out.golden") []).2).2
          (ascii "testdata/out.golden") = Except.ok (ascii "a\n")
    ∧ (String (unixEnv true) (ascii "a\r\n") (ascii "out.golden")
        (String (unixEnv true) (ascii "a\r\n") (ascii "out.golden") []).2).1 ≠
          Result.success :=
  ⟨by decide,
    (String_update_twice_crlf (unixEnv true) [] (ascii "a\r\n") (ascii "out.golden")
      rfl (by decide) (by decide) rfl (by decide) rfl).2.1,
    (String_update_twice_crlf (unixEnv true) [] (ascii "a\r\n") (ascii "out.golden")
      rfl (by decide) (by decide) rfl (by decide) rfl).2.2.2⟩

/-- C7. With the update flag off, `update` returns no error for every input,
and `update`, `compare`, `String`, `Bytes`, `Assert` and `AssertBytes` all leave
the filesystem exactly as it was. -/
theorem update_off_leaves_filesystem {σ : Type} (env : Env σ) (t : TestingT) (s : σ)
    (actual filename : ByteSeq) (clean : Bool) (msgAndArgs : List ByteSeq)
    (hoff : env.flagUpdate = false) :
    (update env filename actual clean s).1 = none
    ∧ (update env filename actual clean s).2 = s
    ∧ (compare env actual filename clean s).2 = s
    ∧ (String env actual filename s).2 = s
    ∧ (Bytes env actual filename s).2 = s
    ∧ (Assert env t actual filename msgAndArgs s).2.2 = s
    ∧ (AssertBytes env t actual filename msgAndArgs s).2.2 = s := by
  refine ⟨?_, ?_, ?_, ?_, ?_, ?_, ?_⟩
  · rw [update_flag_off env filename actual clean s hoff]
  · rw [update_flag_off env filename actual clean s hoff]
  · rw [compare_snd, update_flag_off env filename actual clean s hoff]
  · rw [String_snd, update_flag_off env filename actual true s hoff]
  · rw [Bytes_snd, update_flag_off env filename actual false s hoff]
  · unfold Assert
    rw [Check_state, String_snd, update_flag_off env filename _ true s hoff]
  · unfold AssertBytes
    rw [Check_state, Bytes_snd, update_flag_off env filename actual false s hoff]

/-- Witness for C7: a mismatching comparison with the update flag off leaves
the fixture as it was. -/
theorem update_off_leaves_filesystem_witness :
    (String (unixEnv false) (ascii "new\n") (ascii "out.golden")
      [(ascii "testdata/out.golden", ascii "old\n")]).2 =
      [(ascii "testdata/out.golden", ascii "old\n")] :=
  (update_off_leaves_filesystem (unixEnv false) (TestingT.mk [])
    [(ascii "testdata/out.golden", ascii "old\n")] (ascii "new\n") (ascii "out.golden")
    true [] rfl).2.2.2.1

/-- C8. `Path(filename)` is `filename` itself when `filename` is absolute and
the join of `testdata` with `filename` otherwise; it is a total function of
the filename alone: it does not change with the update flag or with the
filesystem calls, and takes no filesystem state. Hence a comparison given an
absolute filename reads and writes exactly that path: the filesystem it leaves
is the one before, or in update mode the one `WriteFile` at `filename` leaves,
and its result and final state are the same under any other filesystem calls
that agree with the given ones at the path `filename`. -/
theorem Path_resolution {σ : Type} (env : Env σ) (filename : ByteSeq) :
    (env.isAbs filename = true → Path env filename = filename)
    ∧ (env.isAbs filename = false → Path env filename = env.join (ascii "testdata") filename)
    ∧ (∀ b, Path (env.withUpdate b) filename = Path env filename)
    ∧ (∀ r w, Path (env.withFS r w) filename = Path env filename)
    ∧ (env.isAbs filename = true → ∀ (actual : ByteSeq) (s : σ),
        (String env actual filename s).2 =
          (if env.flagUpdate then (env.writeFile s filename (replaceCRLF actual)).2 else s)
        ∧ (Bytes env actual filename s).2 =
          (if env.flagUpdate then (env.writeFile s filename actual).2 else s)
        ∧ (∀ (r : σ → ByteSeq → Except GoError ByteSeq)
            (w : σ → ByteSeq → ByteSeq → Option GoError × σ),
            (∀ s0, r s0 filename = env.readFile s0 filename) →
            (∀ s0 d, w s0 filename d = env.writeFile s0 filename d) →
            String (env.withFS r w) actual filename s = String env actual filename s
            ∧ Bytes (env.withFS r w) actual filename s = Bytes env actual filename s)) := by
  refine ⟨fun h => by simp [Path, h], fun h => by simp [Path, h], fun _ => rfl,
    fun _ _ => rfl, ?_⟩
  intro habs actual s
  have hP : Path env filename = filename := by simp [Path, habs]
  refine ⟨?_, ?_, ?_⟩
  · rw [String_snd]
    cases hf : env.flagUpdate with
    | false => rw [update_flag_off env filename actual true s hf]; simp
    | true => rw [update_flag_on env filename actual true s hf, hP]; simp
  · rw [Bytes_snd]
    cases hf : env.flagUpdate with
    | false => rw [update_flag_off env filename actual false s hf]; simp
    | true => rw [update_flag_on env filename actual false s hf, hP]; simp
  · intro r w hr hw
    exact ⟨String_withFS env actual filename s r w (by rw [hP]; exact hr) (by rw [hP]; exact hw),
      Bytes_withFS env actual filename s r w (by rw [hP]; exact hr) (by rw [hP]; exact hw)⟩

/-- Witness for C8: an absolute filename resolves to itself, and an update run
writes exactly that path. -/
theorem Path_resolution_witness :
    Path (unixEnv true) (ascii "/tmp/out.golden") = ascii "/tmp/out.golden"
    ∧ (Bytes (unixEnv true) [7] (ascii "/tmp/out.golden") []).2 =
        [(ascii "/tmp/out.golden", [7])] :=
  ⟨(Path_resolution (unixEnv true) (ascii "/tmp/out.golden")).1 (by decide),
    ((Path_resolution (unixEnv true) (ascii "/tmp/out.golden")).2.2.2.2 (by decide)
      [7] []).2.1⟩

/-- C9 (the code departs from the claim). With the update flag off, for every
string `A` containing a CRLF sequence and every fixture holding `A` with each
CRLF replaced by LF, `Assert(t, A, filename)` returns true and reports nothing,
while `assert.Check(t, String(A, filename))` returns false and reports a
result to `t`: `Assert` normalises `A` before the comparison and `String` does
not. -/
theorem Assert_not_Check_String {σ : Type} (env : Env σ) (t : TestingT) (s : σ)
    (A filename : ByteSeq) (msgAndArgs : List ByteSeq)
    (hoff : env.flagUpdate = false) (hA : containsCRLF A = true)
    (hfix : env.readFile s (Path env filename) = Except.ok (replaceCRLF A)) :
    (Assert env t A filename msgAndArgs s).1 = true
    ∧ (Assert env t A filename msgAndArgs s).2.1.reports = t.reports
    ∧ (Check t (String env A filename) msgAndArgs s).1 = false
    ∧ (Check t (String env A filename) msgAndArgs s).2.1.reports.length =
        t.reports.length + 1 := by
  have hu : ∀ a, update env filename a true s = (none, s) :=
    fun a => update_flag_off env filename a true s hoff
  have h1 : (String env (replaceCRLF A) filename s).1 = Result.success :=
    String_success env (replaceCRLF A) filename s (by rw [hu]) (by rw [hu]; exact hfix)
  have h2 : (String env A filename s).1 ≠ Result.success :=
    String_ne_success env A filename (replaceCRLF A) s (by rw [hu]) (by rw [hu]; exact hfix)
      (replaceCRLF_ne_of_contains A hA)
  have ht := Check_true_reports t (String env (replaceCRLF A) filename) msgAndArgs s h1
  have hf := Check_false_reports t (String env A filename) msgAndArgs s h2
  refine ⟨ht.1, ?_, hf.1, ?_⟩
  · unfold Assert
    rw [ht.2]
  · rw [hf.2]
    simp

/-- The failing input of C9: actual `a CR LF`, fixture `a LF`, update flag
off. -/
theorem Assert_not_Check_String_witness :
    (Assert (unixEnv false) (TestingT.mk []) (ascii "a\r\n") (ascii "out.golden") []
      [(ascii "testdata/out.golden", ascii "a\n")]).1 = true
    ∧ (Check (TestingT.mk []) (String (unixEnv false) (ascii "a\r\n") (ascii "out.golden")) []
      [(ascii "testdata/out.golden", ascii "a\n")]).1 = false :=
  ⟨(Assert_not_Check_String (unixEnv false) (TestingT.mk [])
      [(ascii "testdata/out.golden", ascii "a\n")] (ascii "a\r\n") (ascii "out.golden") []
      rfl (by decide) rfl).1,
    (Assert_not_Check_String (unixEnv false) (TestingT.mk [])
      [(ascii "testdata/out.golden", ascii "a\n")] (ascii "a\r\n") (ascii "out.golden") []
      rfl (by decide) rfl).2.2.1⟩

/-- C10 (the code departs from the claim). With the update flag on, for every
actual string containing a CR CR LF sequence, when the write succeeds and the
file then reads back as the bytes written, `Assert(t, actual, filename)`
returns false and reports a result to `t`. `Assert` replaces each CRLF by LF
once, `update` replaces each CRLF by LF in that text once more before writing,
and `compare` tests the fixture against the text normalised once, which still
contains a CRLF sequence. -/
theorem Assert_update_crcrlf_fails {σ : Type} (env : Env σ) (t : TestingT) (s : σ)
    (actual filename : ByteSeq) (msgAndArgs : List ByteSeq)
    (hon : env.flagUpdate = true) (hA : containsCRCRLF actual = true)
    (hw : (env.writeFile s (Path env filename) (replaceCRLF (replaceCRLF actual))).1 = none)
    (hr : env.readFile (env.writeFile s (Path env filename) (replaceCRLF (replaceCRLF actual))).2
      (Path env filename) = Except.ok (replaceCRLF (replaceCRLF actual))) :
    (Assert env t actual filename msgAndArgs s).1 = false
    ∧ (Assert env t actual filename msgAndArgs s).2.1.reports.length = t.reports.length + 1
    ∧ env.readFile (Assert env t actual filename msgAndArgs s).2.2 (Path env filename) =
        Except.ok (replaceCRLF (replaceCRLF actual))
    ∧ replaceCRLF (replaceCRLF actual) ≠ replaceCRLF actual
    ∧ containsCRLF (replaceCRLF actual) = true := by
  have hc : containsCRLF (replaceCRLF actual) = true := by
    rw [containsCRLF_replaceCRLF]; exact hA
  have hne : replaceCRLF (replaceCRLF actual) ≠ replaceCRLF actual :=
    replaceCRLF_ne_of_contains _ hc
  have hu : update env filename (replaceCRLF actual) true s =
      env.writeFile s (Path env filename) (replaceCRLF (replaceCRLF actual)) := by
    rw [update_flag_on env filename (replaceCRLF actual) true s hon]
    simp
  have h2 : (String env (replaceCRLF actual) filename s).1 ≠ Result.success :=
    String_ne_success env (replaceCRLF actual) filename (replaceCRLF (replaceCRLF actual)) s
      (by rw [hu]; exact hw) (by rw [hu]; exact hr) hne
  have hf := Check_false_reports t (String env (replaceCRLF actual) filename) msgAndArgs s h2
  refine ⟨hf.1, ?_, ?_, hne, hc⟩
  · unfold Assert
    rw [hf.2]
    simp
  · unfold Assert
    rw [Check_state, String_snd, hu]
    exact hr

/-- The failing input of C10: actual `CR CR LF`, update flag on, no fixture
before the run, regular files. The file written holds `LF` and `Assert`
returns false. -/
theorem Assert_update_crcrlf_fails_witness :
    (Assert (unixEnv true) (TestingT.mk []) [CR, CR, LF] (ascii "out.golden") [] []).1 = false
    ∧ (Assert (unixEnv true) (TestingT.mk []) [CR, CR, LF] (ascii "out.golden") [] []).2.2 =
        [(ascii "testdata/out.golden", [LF])] :=
  ⟨(Assert_update_crcrlf_fails (unixEnv true) (TestingT.mk []) [] [CR, CR, LF]
      (ascii "out.golden") [] rfl (by decide) (by decide) rfl).1,
    by decide⟩

end Golden
